import Mathlib

/-!
Shallow embedding of the staking/voting program
(`programs/staking_voting_contract/src/lib.rs`).

Each on-chain instruction handler becomes a pure function from the accounts
it touches (plus the clock's `unix_timestamp`) to an `Except` result: an
`Except.error` models a failed transaction, which by Solana's all-or-nothing
transaction semantics leaves every account unchanged.  Anchor's account
constraints (`has_one = owner`, `init` collision on the PDA derived from
`[b"vote", proposal, user]`) are validated before the handler body runs, in
account-struct field order, and are modelled as the leading guards of each
function.  `u64` fields are modelled as `Nat` with checked addition failing
above `2 ^ 64 - 1`; `i64` timestamps are modelled as `Int`.
-/

deriving instance DecidableEq for Except

namespace StakingVoting

/-- Public keys (participant / account identifiers), abstracted as naturals. -/
abbrev Pubkey := Nat

/-- Largest value representable by a `u64`. -/
def U64_MAX : Nat := 2 ^ 64 - 1

/-- Models `u64::checked_add`: the sum, or `none` on overflow. -/
def checked_add (a b : Nat) : Option Nat :=
  if a + b ≤ U64_MAX then some (a + b) else none

/-- Program error codes, from the `#[error_code]` enum in lib.rs. -/
inductive ErrorCode
  | InsufficientStake
  | MathOverflow
  | CooldownNotPassed
  | NoUnstakeRequested
  | VotingPeriodEnded
  | VotingPeriodNotEnded
deriving DecidableEq

/-- Transaction-level failures: a program error returned by the handler, an
Anchor `has_one` constraint violation, or an `init` colliding with an already
existing account (the duplicate-vote PDA collision). -/
inductive TxError
  | program (e : ErrorCode)
  | constraintHasOne
  | accountAlreadyInUse
deriving DecidableEq

/-- The `StakeAccount` account type from lib.rs. -/
structure StakeAccount where
  owner : Pubkey
  staked_amount : Nat
  stake_timestamp : Int
  unstake_requested : Bool
  unstake_timestamp : Option Int
deriving DecidableEq

/-- Proposal status enum from lib.rs. -/
inductive ProposalStatus
  | Active
  | Finalized
deriving DecidableEq

/-- Vote choice enum from lib.rs. -/
inductive VoteChoice
  | Yes
  | No
deriving DecidableEq

/-- The `Proposal` account type from lib.rs. -/
structure Proposal where
  creator : Pubkey
  metadata_uri : String
  start_time : Int
  end_time : Int
  yes_votes : Nat
  no_votes : Nat
  status : ProposalStatus
deriving DecidableEq

/-- The `VoteRecord` account type from lib.rs. -/
structure VoteRecord where
  voter : Pubkey
  proposal : Pubkey
  vote_choice : VoteChoice
  vote_weight : Nat
deriving DecidableEq

/-- A freshly allocated, zero-initialized `StakeAccount`, as produced by
`init_if_needed` before the `stake_sol` handler body runs for the first time. -/
def bondInit : StakeAccount :=
  { owner := 0, staked_amount := 0, stake_timestamp := 0,
    unstake_requested := false, unstake_timestamp := none }

/-- Handler `stake_sol` (lib.rs lines 10-23).  The `StakeSol` accounts struct
(lines 112-118) uses `init_if_needed` and has no `has_one = owner` constraint,
so any signer `user` may run it on an existing account; the body assigns
`owner`, checked-adds `amount` onto `staked_amount`, and stamps the clock. -/
def stake_sol (stake_account : StakeAccount) (user : Pubkey) (amount : Nat)
    (now : Int) : Except TxError StakeAccount :=
  if amount < 1000000000 then .error (.program .InsufficientStake)
  else
    match checked_add stake_account.staked_amount amount with
    | none => .error (.program .MathOverflow)
    | some s =>
        .ok { stake_account with owner := user, staked_amount := s, stake_timestamp := now }

/-- Handler `request_unstake` (lib.rs lines 25-31).  `RequestUnstake`
(lines 120-125) carries `has_one = owner` with `owner` a signer; the body
unconditionally sets the cooldown marker. -/
def request_unstake (stake_account : StakeAccount) (owner : Pubkey)
    (now : Int) : Except TxError StakeAccount :=
  if stake_account.owner ≠ owner then .error .constraintHasOne
  else .ok { stake_account with unstake_requested := true, unstake_timestamp := some now }

/-- Handler `claim_unstake` (lib.rs lines 33-47).  `ClaimUnstake`
(lines 127-132) carries `has_one = owner` with `owner` a signer; the body
gates on the 5-day cooldown and then zeroes the stake and clears the
cooldown marker. -/
def claim_unstake (stake_account : StakeAccount) (owner : Pubkey)
    (now : Int) : Except TxError StakeAccount :=
  if stake_account.owner ≠ owner then .error .constraintHasOne
  else
    match stake_account.unstake_timestamp with
    | some unstake_ts =>
        if now < unstake_ts + 5 * 24 * 3600 then
          .error (.program .CooldownNotPassed)
        else
          .ok { stake_account with staked_amount := 0, unstake_requested := false, unstake_timestamp := none }
    | none => .error (.program .NoUnstakeRequested)

/-- Trace of invocations of the external currency-transfer primitive
(from, to, amount) performed by `claim_unstake`.  The handler body
(lib.rs lines 33-47) contains no transfer CPI and its `ClaimUnstake`
accounts struct (lines 127-132) contains no vault account, so the trace is
empty for every execution. -/
def claim_unstake_transfers (_stake_account : StakeAccount) (_owner : Pubkey)
    (_now : Int) : List (Pubkey × Pubkey × Nat) := []

/-- Handler `initialize_proposal` (lib.rs lines 49-66).  `InitializeProposal`
(lines 134-144) carries `has_one = owner` on the stake account with `owner` a
signer and a separate paying signer `user`; the body requires a minimum stake
and creates an Active proposal with a 3-day voting window. -/
def initialize_proposal (stake_account : StakeAccount) (owner user : Pubkey)
    (metadata_uri : String) (now : Int) : Except TxError Proposal :=
  if stake_account.owner ≠ owner then .error .constraintHasOne
  else if stake_account.staked_amount < 1000000000 then
    .error (.program .InsufficientStake)
  else
    .ok { creator := user, metadata_uri := metadata_uri, start_time := now,
          end_time := now + 3 * 24 * 3600, yes_votes := 0, no_votes := 0,
          status := .Active }

/-- Handler `cast_vote` (lib.rs lines 68-98) together with the `CastVote`
account validation (lines 146-164).  Account validation runs first, in field
order: the `init` of `vote_record` at the PDA seeded by
`[b"vote", proposal.key(), user.key()]` fails if a record for `(pkey, user)`
already exists, then `has_one = owner` ties `stake_account.owner` to the
`owner` signer.  The handler then gates on the voting window, snapshots
`stake_account.staked_amount` as the vote weight, writes the record with
`voter = user`, and checked-adds the weight into the chosen tally.
`records` is the list of `VoteRecord`s existing for this proposal. -/
def cast_vote (pkey : Pubkey) (proposal : Proposal)
    (records : List VoteRecord) (stake_account : StakeAccount)
    (owner user : Pubkey) (vote_choice : VoteChoice) (now : Int) :
    Except TxError (Proposal × List VoteRecord) :=
  if ∃ r ∈ records, r.voter = user then .error .accountAlreadyInUse
  else if stake_account.owner ≠ owner then .error .constraintHasOne
  else if now > proposal.end_time then .error (.program .VotingPeriodEnded)
  else
    let stake_weight := stake_account.staked_amount
    let vr : VoteRecord :=
      { voter := user, proposal := pkey, vote_choice := vote_choice,
        vote_weight := stake_weight }
    match vote_choice with
    | .Yes =>
        match checked_add proposal.yes_votes stake_weight with
        | none => .error (.program .MathOverflow)
        | some v => .ok ({ proposal with yes_votes := v }, vr :: records)
    | .No =>
        match checked_add proposal.no_votes stake_weight with
        | none => .error (.program .MathOverflow)
        | some v => .ok ({ proposal with no_votes := v }, vr :: records)

/-- Handler `finalize_proposal` (lib.rs lines 100-108).  Its accounts struct
`FinalizeProposal` (lines 166-170) holds only the mutable proposal — no
signer and no other account — and the body checks only the clock against
`end_time` before setting the status. -/
def finalize_proposal (proposal : Proposal) (now : Int) :
    Except TxError Proposal :=
  if now < proposal.end_time then .error (.program .VotingPeriodNotEnded)
  else .ok { proposal with status := .Finalized }

/-- Three-state bond lifecycle used by the specification. -/
inductive BondStatus
  | Unstaked
  | Staked
  | Cooldown
deriving DecidableEq

/-- Decodes the boolean-plus-optional-timestamp encoding of lib.rs into the
three-state lifecycle: the cooldown marker `unstake_requested` means
Cooldown, otherwise a positive balance means Staked, otherwise Unstaked. -/
def statusOf (a : StakeAccount) : BondStatus :=
  if a.unstake_requested then .Cooldown
  else if 0 < a.staked_amount then .Staked
  else .Unstaked

/-- States of one `StakeAccount` reachable from its zero-initialized creation
through any sequence of successful `stake_sol`, `request_unstake` and
`claim_unstake` calls, by arbitrary callers at arbitrary clock values. -/
inductive BondReachable : StakeAccount → Prop
  | init : BondReachable bondInit
  | stake (s s' : StakeAccount) (user : Pubkey) (amount : Nat) (now : Int) :
      BondReachable s → stake_sol s user amount now = .ok s' →
      BondReachable s'
  | request (s s' : StakeAccount) (caller : Pubkey) (now : Int) :
      BondReachable s → request_unstake s caller now = .ok s' →
      BondReachable s'
  | claim (s s' : StakeAccount) (caller : Pubkey) (now : Int) :
      BondReachable s → claim_unstake s caller now = .ok s' →
      BondReachable s'

/-- Joint states (proposal, its vote records) of one proposal account with
key `pkey`, reachable from its creation by `initialize_proposal` through any
sequence of successful `cast_vote` and `finalize_proposal` calls. -/
inductive GovReachable : Pubkey → Proposal → List VoteRecord → Prop
  | init (pkey : Pubkey) (sa : StakeAccount) (owner user : Pubkey)
      (uri : String) (now : Int) (p : Proposal) :
      initialize_proposal sa owner user uri now = .ok p →
      GovReachable pkey p []
  | vote (pkey : Pubkey) (p p' : Proposal) (rs rs' : List VoteRecord)
      (sa : StakeAccount) (owner user : Pubkey) (c : VoteChoice) (now : Int) :
      GovReachable pkey p rs →
      cast_vote pkey p rs sa owner user c now = .ok (p', rs') →
      GovReachable pkey p' rs'
  | finalize (pkey : Pubkey) (p p' : Proposal) (rs : List VoteRecord)
      (now : Int) :
      GovReachable pkey p rs → finalize_proposal p now = .ok p' →
      GovReachable pkey p' rs

/-- Characterization of a successful `cast_vote`: account validation passed
(no prior record by `user`, the stake account is owned by the `owner`
signer), the clock is within the window, the new record heads the record
list with `voter = user` and weight `staked_amount`, and exactly that weight
was added to the tallies. -/
theorem cast_vote_ok (pkey : Pubkey) (p : Proposal) (rs : List VoteRecord)
    (sa : StakeAccount) (owner user : Pubkey) (c : VoteChoice) (now : Int)
    (p' : Proposal) (rs' : List VoteRecord)
    (h : cast_vote pkey p rs sa owner user c now = .ok (p', rs')) :
    sa.owner = owner ∧ (∀ r ∈ rs, r.voter ≠ user) ∧ now ≤ p.end_time ∧
    rs' = { voter := user, proposal := pkey, vote_choice := c,
            vote_weight := sa.staked_amount } :: rs ∧
    p'.end_time = p.end_time ∧ p'.status = p.status ∧
    p'.yes_votes + p'.no_votes = p.yes_votes + p.no_votes + sa.staked_amount ∧
    p.yes_votes ≤ p'.yes_votes ∧ p.no_votes ≤ p'.no_votes := by
  rw [cast_vote] at h
  split at h
  · exact absurd h (by simp)
  next hex =>
    split at h
    · exact absurd h (by simp)
    next hown =>
      split at h
      · exact absurd h (by simp)
      next htime =>
        have hex' : ∀ r ∈ rs, r.voter ≠ user := by
          intro r hr
          exact fun he => hex ⟨r, hr, he⟩
        cases c with
        | Yes =>
            dsimp only at h
            split at h
            · exact absurd h (by simp)
            next v heq =>
              rw [checked_add] at heq
              split at heq
              · injection heq with heq
                simp only [Except.ok.injEq, Prod.mk.injEq] at h
                obtain ⟨h1, h2⟩ := h
                subst h1; subst h2; subst heq
                refine ⟨not_not.mp hown, hex', not_lt.mp htime, rfl, rfl, rfl,
                  ?_, ?_, ?_⟩
                · show p.yes_votes + sa.staked_amount + p.no_votes =
                    p.yes_votes + p.no_votes + sa.staked_amount
                  omega
                · show p.yes_votes ≤ p.yes_votes + sa.staked_amount
                  omega
                · show p.no_votes ≤ p.no_votes
                  omega
              · exact absurd heq (by simp)
        | No =>
            dsimp only at h
            split at h
            · exact absurd h (by simp)
            next v heq =>
              rw [checked_add] at heq
              split at heq
              · injection heq with heq
                simp only [Except.ok.injEq, Prod.mk.injEq] at h
                obtain ⟨h1, h2⟩ := h
                subst h1; subst h2; subst heq
                refine ⟨not_not.mp hown, hex', not_lt.mp htime, rfl, rfl, rfl,
                  ?_, ?_, ?_⟩
                · show p.yes_votes + (p.no_votes + sa.staked_amount) =
                    p.yes_votes + p.no_votes + sa.staked_amount
                  omega
                · show p.yes_votes ≤ p.yes_votes
                  omega
                · show p.no_votes ≤ p.no_votes + sa.staked_amount
                  omega
              · exact absurd heq (by simp)

/-- Characterization of a successful `initialize_proposal`: the stake account
belongs to the `owner` signer with at least the minimum stake, and the
created proposal is Active with zeroed tallies and a 3-day window. -/
theorem initialize_proposal_ok (sa : StakeAccount) (owner user : Pubkey)
    (uri : String) (now : Int) (p : Proposal)
    (h : initialize_proposal sa owner user uri now = .ok p) :
    p = { creator := user, metadata_uri := uri, start_time := now,
          end_time := now + 3 * 24 * 3600, yes_votes := 0, no_votes := 0,
          status := .Active } ∧
    sa.owner = owner ∧ 1000000000 ≤ sa.staked_amount := by
  rw [initialize_proposal] at h
  split at h
  · exact absurd h (by simp)
  next hown =>
    split at h
    · exact absurd h (by simp)
    next hstk =>
      injection h with h
      exact ⟨h.symm, not_not.mp hown, by omega⟩

/-- Characterization of a successful `finalize_proposal`: the clock has
reached `end_time` and only the status changed, to Finalized. -/
theorem finalize_proposal_ok (p : Proposal) (now : Int) (p' : Proposal)
    (h : finalize_proposal p now = .ok p') :
    p' = { p with status := .Finalized } ∧ p.end_time ≤ now := by
  rw [finalize_proposal] at h
  split at h
  · exact absurd h (by simp)
  next ht =>
    injection h with h
    exact ⟨h.symm, not_lt.mp ht⟩

/-- Inductive invariant of every reachable (proposal, records) state: the
tallies sum to the total recorded weight, every record points back at this
proposal, and no two records share a voter. -/
theorem gov_inv (pkey : Pubkey) (p : Proposal) (rs : List VoteRecord)
    (h : GovReachable pkey p rs) :
    p.yes_votes + p.no_votes = (rs.map (fun r => r.vote_weight)).sum ∧
    (∀ r ∈ rs, r.proposal = pkey) ∧
    rs.Pairwise (fun r1 r2 => r1.voter ≠ r2.voter) := by
  induction h with
  | init sa owner user uri now p hp =>
      obtain ⟨hp, -, -⟩ := initialize_proposal_ok _ _ _ _ _ _ hp
      subst hp
      simp
  | vote p p' rs rs' sa owner user c now hr hv ih =>
      obtain ⟨-, hnew, -, hrs, -, -, hsum, -, -⟩ :=
        cast_vote_ok _ _ _ _ _ _ _ _ _ _ hv
      subst hrs
      obtain ⟨ihsum, ihkey, ihpw⟩ := ih
      refine ⟨?_, ?_, ?_⟩
      · simp only [List.map_cons, List.sum_cons]
        omega
      · intro r hmem
        rcases List.mem_cons.mp hmem with hh | hh
        · subst hh; rfl
        · exact ihkey r hh
      · exact List.Pairwise.cons (fun r hmem => (hnew r hmem).symm) ihpw
  | finalize p p' rs now hr hf ih =>
      obtain ⟨hp', -⟩ := finalize_proposal_ok _ _ _ hf
      subst hp'
      exact ih

/-- Example bond: owned by participant 1, holding the minimum stake. -/
def c1_acct : StakeAccount :=
  { owner := 1, staked_amount := 1000000000, stake_timestamp := 0,
    unstake_requested := false, unstake_timestamp := none }

/-- Claim C1: the claim says the `owner` field of an existing BondAccount is
immutable under later `stake_sol` calls by any signer.  The code violates
this: `StakeSol` uses `init_if_needed` with no `has_one = owner` constraint
and the handler assigns `owner := user` on every call, so a stake by signer 2
on the account owned by participant 1 succeeds and overwrites the owner. -/
theorem stake_sol_owner_overwrite :
    stake_sol c1_acct 2 1000000000 5 =
      .ok { owner := 2, staked_amount := 2000000000, stake_timestamp := 5,
            unstake_requested := false, unstake_timestamp := none } ∧
    ({ owner := 2, staked_amount := 2000000000, stake_timestamp := 5,
       unstake_requested := false, unstake_timestamp := none } :
       StakeAccount).owner ≠ c1_acct.owner := by decide

/-- Example bond in cooldown: owned by 3, stake 2, cooldown started at 0. -/
def c2_acct : StakeAccount :=
  { owner := 3, staked_amount := 2000000000, stake_timestamp := 0,
    unstake_requested := true, unstake_timestamp := some 0 }

/-- Claim C2 (counterexample): at a concrete successful `claim_unstake` the
handler invokes the external transfer primitive zero times, not exactly
once — the handler body has no transfer CPI and no vault account at all. -/
theorem claim_unstake_zero_transfers_cex :
    claim_unstake c2_acct 3 432000 =
      .ok { owner := 3, staked_amount := 0, stake_timestamp := 0,
            unstake_requested := false, unstake_timestamp := none } ∧
    claim_unstake_transfers c2_acct 3 432000 = [] ∧
    (claim_unstake_transfers c2_acct 3 432000).length ≠ 1 := by decide

/-- Claim C2 (amended): a successful `claim_unstake` performs no vault
re-derivation or validation and invokes the external transfer primitive zero
times; it only resets `staked_amount` to 0, clears the cooldown marker, and
returns the account to Unstaked. -/
theorem claim_unstake_no_transfer (a : StakeAccount) (owner : Pubkey)
    (now : Int) (a' : StakeAccount) (h : claim_unstake a owner now = .ok a') :
    a' = { a with staked_amount := 0, unstake_requested := false, unstake_timestamp := none } ∧
    claim_unstake_transfers a owner now = [] ∧
    statusOf a' = .Unstaked := by
  rw [claim_unstake] at h
  split at h
  · exact absurd h (by simp)
  next hown =>
    split at h
    next ts heq =>
      split at h
      · exact absurd h (by simp)
      next hcd =>
        injection h with h
        subst h
        exact ⟨rfl, rfl, by simp [statusOf]⟩
    next heq => exact absurd h (by simp)

/-- Claim C2 (amended) witness at a concrete successful claim. -/
theorem claim_unstake_no_transfer_witness :
    ({ owner := 3, staked_amount := 0, stake_timestamp := 0,
       unstake_requested := false, unstake_timestamp := none } : StakeAccount) =
      { c2_acct with staked_amount := 0, unstake_requested := false, unstake_timestamp := none } ∧
    claim_unstake_transfers c2_acct 3 432000 = [] ∧
    statusOf { owner := 3, staked_amount := 0, stake_timestamp := 0,
               unstake_requested := false, unstake_timestamp := none } = .Unstaked :=
  claim_unstake_no_transfer c2_acct 3 432000
    { owner := 3, staked_amount := 0, stake_timestamp := 0,
      unstake_requested := false, unstake_timestamp := none } (by decide)

/-- Reachable zero-balance cooldown state: staked 1, requested unstake,
claimed after the cooldown (balance 0), then requested unstake again. -/
def c3_state : StakeAccount :=
  { owner := 1, staked_amount := 0, stake_timestamp := 0,
    unstake_requested := true, unstake_timestamp := some 5 }

/-- Claim C3 (counterexample): a zero-balance account with the Cooldown
marker set is reachable (stake, request, claim after the cooldown, request
again — `request_unstake` never checks the balance), refuting the claimed
iff between a positive balance and status in \x7bStaked, Cooldown\x7d. -/
theorem zero_balance_cooldown_cex :
    BondReachable c3_state ∧ c3_state.staked_amount = 0 ∧
    statusOf c3_state = .Cooldown ∧
    ¬(0 < c3_state.staked_amount ↔
      (statusOf c3_state = .Staked ∨ statusOf c3_state = .Cooldown)) := by
  refine ⟨?_, by decide, by decide, by decide⟩
  have h1 : BondReachable { owner := 1, staked_amount := 1000000000, stake_timestamp := 0, unstake_requested := false, unstake_timestamp := none } :=
    BondReachable.stake bondInit _ 1 1000000000 0 BondReachable.init (by decide)
  have h2 : BondReachable { owner := 1, staked_amount := 1000000000, stake_timestamp := 0, unstake_requested := true, unstake_timestamp := some 0 } :=
    BondReachable.request _ _ 1 0 h1 (by decide)
  have h3 : BondReachable { owner := 1, staked_amount := 0, stake_timestamp := 0, unstake_requested := false, unstake_timestamp := none } :=
    BondReachable.claim _ _ 1 432000 h2 (by decide)
  exact BondReachable.request _ _ 1 5 h3 (by decide)

/-- Claim C3 (amended): for every reachable bond state, a positive balance
implies status Staked or Cooldown; the converse direction of the claimed iff
fails (see the counterexample) because `request_unstake` succeeds on
zero-balance accounts. -/
theorem bond_status_forward (a : StakeAccount) (_reach : BondReachable a)
    (hpos : 0 < a.staked_amount) :
    statusOf a = .Staked ∨ statusOf a = .Cooldown := by
  cases hb : a.unstake_requested <;> simp [statusOf, hb, hpos]

/-- Claim C3 (amended) witness: the state after one minimum stake. -/
theorem bond_status_forward_witness :
    statusOf { owner := 1, staked_amount := 1000000000, stake_timestamp := 0,
               unstake_requested := false, unstake_timestamp := none } = .Staked ∨
    statusOf { owner := 1, staked_amount := 1000000000, stake_timestamp := 0,
               unstake_requested := false, unstake_timestamp := none } = .Cooldown :=
  bond_status_forward _
    (BondReachable.stake bondInit _ 1 1000000000 0 BondReachable.init (by decide))
    (by decide)

/-- Example proposal (key 7): created at 0, 3-day window, Active. -/
def c4_prop : Proposal :=
  { creator := 1, metadata_uri := "m", start_time := 0, end_time := 259200,
    yes_votes := 0, no_votes := 0, status := .Active }

/-- Example bond for voting: owned by 1, stake 5. -/
def c4_bond : StakeAccount :=
  { owner := 1, staked_amount := 5000000000, stake_timestamp := 0,
    unstake_requested := false, unstake_timestamp := none }

/-- Claim C4 (counterexample): `CastVote` has two distinct signers, `owner`
(tied to the stake account by `has_one`) and `user` (the recorded voter, and
the PDA seed); nothing requires them to coincide.  With `owner = 1` and
`user = 2` the vote succeeds, records voter 2, but weights it with the
`staked_amount` of the bond owned by 1. -/
theorem cast_vote_voter_mismatch_cex :
    cast_vote 7 c4_prop [] c4_bond 1 2 .Yes 0 =
      .ok ({ creator := 1, metadata_uri := "m", start_time := 0, end_time := 259200,
             yes_votes := 5000000000, no_votes := 0, status := .Active },
           [{ voter := 2, proposal := 7, vote_choice := .Yes, vote_weight := 5000000000 }]) ∧
    ({ voter := 2, proposal := 7, vote_choice := .Yes, vote_weight := 5000000000 } :
      VoteRecord).voter ≠ c4_bond.owner := by decide

/-- Claim C4 (amended): every successful `cast_vote` snapshots the
`staked_amount` of the bond owned by the `owner` signer as the weight, and
records the `user` signer as the voter; the two signers need not be the same
participant, so the recorded voter can differ from the bond's owner. -/
theorem cast_vote_voter_weight_spec (pkey : Pubkey) (p : Proposal)
    (rs : List VoteRecord) (sa : StakeAccount) (owner user : Pubkey)
    (c : VoteChoice) (now : Int) (p' : Proposal) (rs' : List VoteRecord)
    (h : cast_vote pkey p rs sa owner user c now = .ok (p', rs')) :
    sa.owner = owner ∧
    rs' = { voter := user, proposal := pkey, vote_choice := c,
            vote_weight := sa.staked_amount } :: rs ∧
    p'.yes_votes + p'.no_votes = p.yes_votes + p.no_votes + sa.staked_amount := by
  obtain ⟨h1, -, -, h4, -, -, h7, -, -⟩ := cast_vote_ok _ _ _ _ _ _ _ _ _ _ h
  exact ⟨h1, h4, h7⟩

/-- Claim C4 (amended) witness at the concrete mismatched-signer vote. -/
theorem cast_vote_voter_weight_witness :
    c4_bond.owner = 1 ∧
    [({ voter := 2, proposal := 7, vote_choice := .Yes, vote_weight := 5000000000 } :
       VoteRecord)] =
      { voter := 2, proposal := 7, vote_choice := .Yes,
        vote_weight := c4_bond.staked_amount } :: [] ∧
    ({ creator := 1, metadata_uri := "m", start_time := 0, end_time := 259200,
       yes_votes := 5000000000, no_votes := 0, status := .Active } : Proposal).yes_votes +
      ({ creator := 1, metadata_uri := "m", start_time := 0, end_time := 259200,
         yes_votes := 5000000000, no_votes := 0, status := .Active } : Proposal).no_votes =
      c4_prop.yes_votes + c4_prop.no_votes + c4_bond.staked_amount :=
  cast_vote_voter_weight_spec 7 c4_prop [] c4_bond 1 2 .Yes 0
    { creator := 1, metadata_uri := "m", start_time := 0, end_time := 259200,
      yes_votes := 5000000000, no_votes := 0, status := .Active }
    [{ voter := 2, proposal := 7, vote_choice := .Yes, vote_weight := 5000000000 }]
    (by decide)

/-- Example governance fixtures: bond of participant 1 with stake 5, the
proposal (key 7) it creates at time 0, the proposal after 1 votes Yes, the
resulting vote record, and the proposal after finalization at 259200. -/
def govBond : StakeAccount :=
  { owner := 1, staked_amount := 5000000000, stake_timestamp := 0,
    unstake_requested := false, unstake_timestamp := none }

/-- Example proposal as created at time 0. -/
def govProp0 : Proposal :=
  { creator := 1, metadata_uri := "m", start_time := 0, end_time := 259200,
    yes_votes := 0, no_votes := 0, status := .Active }

/-- Example proposal after participant 1 voted Yes with weight 5. -/
def govProp1 : Proposal :=
  { creator := 1, metadata_uri := "m", start_time := 0, end_time := 259200,
    yes_votes := 5000000000, no_votes := 0, status := .Active }

/-- Example vote record of that vote. -/
def govRec : VoteRecord :=
  { voter := 1, proposal := 7, vote_choice := .Yes, vote_weight := 5000000000 }

/-- Example proposal after finalization at its `end_time`. -/
def govPropF : Proposal :=
  { creator := 1, metadata_uri := "m", start_time := 0, end_time := 259200,
    yes_votes := 5000000000, no_votes := 0, status := .Finalized }

/-- Reachability of the voted example state. -/
theorem govReach1 : GovReachable 7 govProp1 [govRec] :=
  GovReachable.vote 7 govProp0 govProp1 [] [govRec] govBond 1 1 .Yes 0
    (GovReachable.init 7 govBond 1 1 "m" 0 govProp0 (by decide)) (by decide)

/-- Reachability of the finalized example state. -/
theorem govReachF : GovReachable 7 govPropF [govRec] :=
  GovReachable.finalize 7 govProp1 govPropF [govRec] 259200 govReach1 (by decide)

/-- Claim C5: in every reachable state of a proposal, no two VoteRecords
share a voter; once a record by `user` exists, any further `cast_vote` by
`user` fails at record creation with the account-already-in-use collision
(which, by all-or-nothing transaction semantics, leaves the tallies
unchanged); and a successful `cast_vote` requires no prior record by that
voter and leaves behind a record by that voter. -/
theorem vote_record_unique (pkey : Pubkey) (p : Proposal)
    (rs : List VoteRecord) (h : GovReachable pkey p rs) :
    rs.Pairwise (fun r1 r2 => r1.voter ≠ r2.voter) ∧
    (∀ user, (∃ r ∈ rs, r.voter = user) →
      ∀ sa owner c now,
        cast_vote pkey p rs sa owner user c now = .error .accountAlreadyInUse) ∧
    (∀ sa owner user c now p' rs',
      cast_vote pkey p rs sa owner user c now = .ok (p', rs') →
      (∀ r ∈ rs, r.voter ≠ user) ∧ ∃ r ∈ rs', r.voter = user) := by
  refine ⟨(gov_inv _ _ _ h).2.2, ?_, ?_⟩
  · intro user hex sa owner c now
    rw [cast_vote, if_pos hex]
  · intro sa owner user c now p' rs' hok
    obtain ⟨-, hnew, -, hrs, -, -, -, -, -⟩ := cast_vote_ok _ _ _ _ _ _ _ _ _ _ hok
    subst hrs
    exact ⟨hnew, ⟨_, List.mem_cons_self _ _, rfl⟩⟩

/-- Claim C5 witness at the reachable one-vote example state. -/
theorem vote_record_unique_witness :
    [govRec].Pairwise (fun r1 r2 => r1.voter ≠ r2.voter) ∧
    (∀ user, (∃ r ∈ [govRec], r.voter = user) →
      ∀ sa owner c now,
        cast_vote 7 govProp1 [govRec] sa owner user c now = .error .accountAlreadyInUse) ∧
    (∀ sa owner user c now p' rs',
      cast_vote 7 govProp1 [govRec] sa owner user c now = .ok (p', rs') →
      (∀ r ∈ [govRec], r.voter ≠ user) ∧ ∃ r ∈ rs', r.voter = user) :=
  vote_record_unique 7 govProp1 [govRec] govReach1

/-- Claim C6: in every reachable state of a proposal that has been
finalized, `yes_votes + no_votes` equals the sum of `vote_weight` over all
VoteRecords existing for that proposal (which all point back at it). -/
theorem tally_consistency (pkey : Pubkey) (p : Proposal)
    (rs : List VoteRecord) (h : GovReachable pkey p rs)
    (_hf : p.status = .Finalized) :
    p.yes_votes + p.no_votes = (rs.map (fun r => r.vote_weight)).sum ∧
    ∀ r ∈ rs, r.proposal = pkey :=
  ⟨(gov_inv _ _ _ h).1, (gov_inv _ _ _ h).2.1⟩

/-- Claim C6 witness at the reachable finalized example state. -/
theorem tally_consistency_witness :
    govPropF.yes_votes + govPropF.no_votes =
      ([govRec].map (fun r => r.vote_weight)).sum ∧
    ∀ r ∈ [govRec], r.proposal = 7 :=
  tally_consistency 7 govPropF [govRec] govReachF (by decide)

/-- Claim C7: with the clock strictly past `end_time` no `cast_vote` can
succeed, and one that reaches the handler (its account validation having
passed) fails with `VotingPeriodEnded`; `finalize_proposal` strictly before
`end_time` fails with `VotingPeriodNotEnded`; `finalize_proposal` exactly at
`end_time` succeeds. -/
theorem voting_window_spec (pkey : Pubkey) (p : Proposal)
    (rs : List VoteRecord) (sa : StakeAccount) (user : Pubkey)
    (c : VoteChoice) (now : Int) :
    (p.end_time < now → ∀ p' rs',
      cast_vote pkey p rs sa sa.owner user c now ≠ .ok (p', rs')) ∧
    (p.end_time < now → (∀ r ∈ rs, r.voter ≠ user) →
      cast_vote pkey p rs sa sa.owner user c now =
        .error (.program .VotingPeriodEnded)) ∧
    (now < p.end_time →
      finalize_proposal p now = .error (.program .VotingPeriodNotEnded)) ∧
    finalize_proposal p p.end_time = .ok { p with status := .Finalized } := by
  refine ⟨?_, ?_, ?_, ?_⟩
  · intro ht p' rs' hok
    obtain ⟨-, -, hle, -, -, -, -, -, -⟩ := cast_vote_ok _ _ _ _ _ _ _ _ _ _ hok
    omega
  · intro ht hnew
    have h1 : ¬∃ r ∈ rs, r.voter = user := by
      rintro ⟨r, hr, he⟩
      exact hnew r hr he
    rw [cast_vote, if_neg h1, if_neg (by simp), if_pos ht]
  · intro ht
    rw [finalize_proposal, if_pos ht]
  · rw [finalize_proposal, if_neg (lt_irrefl _)]

/-- Claim C7 witness at concrete clock values around the example window. -/
theorem voting_window_spec_witness :
    cast_vote 7 govProp0 [] govBond govBond.owner 1 .Yes 300000 =
      .error (.program .VotingPeriodEnded) ∧
    finalize_proposal govProp0 100 = .error (.program .VotingPeriodNotEnded) ∧
    finalize_proposal govProp0 govProp0.end_time =
      .ok { govProp0 with status := .Finalized } := by
  refine ⟨?_, ?_, ?_⟩
  · exact (voting_window_spec 7 govProp0 [] govBond 1 .Yes 300000).2.1
      (by decide) (by simp)
  · exact (voting_window_spec 7 govProp0 [] govBond 1 .Yes 100).2.2.1 (by decide)
  · exact (voting_window_spec 7 govProp0 [] govBond 1 .Yes 0).2.2.2

/-- Short-window example proposal for re-voting after finalization. -/
def c8_prop : Proposal :=
  { creator := 1, metadata_uri := "m", start_time := 0, end_time := 100,
    yes_votes := 0, no_votes := 0, status := .Active }

/-- The short-window proposal, finalized, before and after a late vote. -/
def c8_propF : Proposal :=
  { creator := 1, metadata_uri := "m", start_time := 0, end_time := 100,
    yes_votes := 0, no_votes := 0, status := .Finalized }

/-- The finalized short-window proposal after a Yes vote of weight 5. -/
def c8_propF2 : Proposal :=
  { creator := 1, metadata_uri := "m", start_time := 0, end_time := 100,
    yes_votes := 5000000000, no_votes := 0, status := .Finalized }

/-- Claim C8 (counterexample): at the clock exactly equal to `end_time`,
`finalize_proposal` succeeds, and a subsequent `cast_vote` at the same
timestamp also succeeds — `cast_vote` never inspects `status` — increasing
the `yes_votes` accumulator of an already-Finalized proposal. -/
theorem finalized_proposal_vote_cex :
    finalize_proposal c8_prop 100 = .ok c8_propF ∧
    c8_propF.status = .Finalized ∧
    cast_vote 7 c8_propF [] govBond 1 1 .Yes 100 =
      .ok (c8_propF2,
           [{ voter := 1, proposal := 7, vote_choice := .Yes, vote_weight := 5000000000 }]) ∧
    c8_propF.yes_votes < c8_propF2.yes_votes := by decide

/-- Claim C8 (amended): the accumulators are non-decreasing and can only
increase through a `cast_vote` whose clock is at most `end_time`, and a vote
never changes the status; so strictly after `end_time` no vote can increase
the accumulators of a Finalized proposal, but exactly at `end_time` a vote
can still increase them (see the counterexample), since `cast_vote` does not
check the status. -/
theorem vote_accumulators_time_gated (pkey : Pubkey) (p : Proposal)
    (rs : List VoteRecord) (sa : StakeAccount) (owner user : Pubkey)
    (c : VoteChoice) (now : Int) (p' : Proposal) (rs' : List VoteRecord)
    (h : cast_vote pkey p rs sa owner user c now = .ok (p', rs')) :
    now ≤ p.end_time ∧ p.yes_votes ≤ p'.yes_votes ∧
    p.no_votes ≤ p'.no_votes ∧ p'.status = p.status := by
  obtain ⟨-, -, h3, -, -, h6, -, h8, h9⟩ := cast_vote_ok _ _ _ _ _ _ _ _ _ _ h
  exact ⟨h3, h8, h9, h6⟩

/-- Claim C8 (amended) witness at the concrete at-deadline vote. -/
theorem vote_accumulators_time_gated_witness :
    (100 : Int) ≤ c8_propF.end_time ∧
    c8_propF.yes_votes ≤ c8_propF2.yes_votes ∧
    c8_propF.no_votes ≤ c8_propF2.no_votes ∧
    c8_propF2.status = c8_propF.status :=
  vote_accumulators_time_gated 7 c8_propF [] govBond 1 1 .Yes 100 c8_propF2
    [{ voter := 1, proposal := 7, vote_choice := .Yes, vote_weight := 5000000000 }]
    (by decide)

/-- Claim C9: `claim_unstake` by the owner fails with `CooldownNotPassed`
strictly before `cooldown_start + 5 days` (an error leaves the account
unchanged under all-or-nothing transaction semantics), fails with
`NoUnstakeRequested` when no unstake is pending, and at or after the
deadline succeeds, zeroing `staked_amount` and returning the account to
Unstaked; a repeated claim on the resulting account fails at any clock, so
the claim succeeds exactly once per request. -/
theorem claim_unstake_cooldown_spec (a : StakeAccount) (now : Int) :
    (∀ ts, a.unstake_timestamp = some ts → now < ts + 5 * 24 * 3600 →
      claim_unstake a a.owner now = .error (.program .CooldownNotPassed)) ∧
    (a.unstake_timestamp = none →
      claim_unstake a a.owner now = .error (.program .NoUnstakeRequested)) ∧
    (∀ ts, a.unstake_timestamp = some ts → ts + 5 * 24 * 3600 ≤ now →
      claim_unstake a a.owner now =
        .ok { a with staked_amount := 0, unstake_requested := false, unstake_timestamp := none } ∧
      statusOf { a with staked_amount := 0, unstake_requested := false, unstake_timestamp := none } = .Unstaked ∧
      ∀ now2, claim_unstake { a with staked_amount := 0, unstake_requested := false, unstake_timestamp := none } a.owner now2 =
        .error (.program .NoUnstakeRequested)) := by
  refine ⟨?_, ?_, ?_⟩
  · intro ts hts hlt
    simp [claim_unstake, hts, hlt]
    omega
  · intro hts
    simp [claim_unstake, hts]
  · intro ts hts hge
    refine ⟨?_, by simp [statusOf], ?_⟩
    · simp [claim_unstake, hts, not_lt.mpr hge]
      omega
    · intro now2
      simp [claim_unstake]

/-- Example bond used for the cooldown witness: request pending since 10. -/
def c9_acct : StakeAccount :=
  { owner := 3, staked_amount := 7000000000, stake_timestamp := 0,
    unstake_requested := true, unstake_timestamp := some 10 }

/-- Claim C9 witness: early claim fails, at-deadline claim succeeds, claim
without a pending request fails. -/
theorem claim_unstake_cooldown_witness :
    claim_unstake c9_acct c9_acct.owner 11 =
      .error (.program .CooldownNotPassed) ∧
    claim_unstake c9_acct c9_acct.owner 432010 =
      .ok { c9_acct with staked_amount := 0, unstake_requested := false, unstake_timestamp := none } ∧
    claim_unstake { owner := 3, staked_amount := 0, stake_timestamp := 0, unstake_requested := false, unstake_timestamp := none } 3 999999 =
      .error (.program .NoUnstakeRequested) := by
  refine ⟨?_, ?_, ?_⟩
  · exact (claim_unstake_cooldown_spec c9_acct 11).1 10 (by decide) (by decide)
  · exact ((claim_unstake_cooldown_spec c9_acct 432010).2.2 10 (by decide) (by decide)).1
  · exact (claim_unstake_cooldown_spec
      { owner := 3, staked_amount := 0, stake_timestamp := 0, unstake_requested := false, unstake_timestamp := none }
      999999).2.1 (by decide)

/-- Claim C10: `finalize_proposal` takes only the proposal and the clock —
its accounts struct holds no signer, so any caller may run it — and checks
only the clock, never the status; once `end_time` has passed it succeeds on
any proposal, and running it again on the already-Finalized result succeeds
and returns the identical state. -/
theorem finalize_any_caller_idempotent (p : Proposal) (t1 t2 : Int)
    (h1 : p.end_time ≤ t1) (h2 : p.end_time ≤ t2) :
    finalize_proposal p t1 = .ok { p with status := .Finalized } ∧
    finalize_proposal { p with status := .Finalized } t2 =
      .ok { p with status := .Finalized } := by
  constructor
  · rw [finalize_proposal, if_neg (not_lt.mpr h1)]
  · have h2' : ¬ t2 < ({ p with status := ProposalStatus.Finalized } : Proposal).end_time :=
      not_lt.mpr h2
    rw [finalize_proposal, if_neg h2']

/-- Claim C10 witness: finalizing the example proposal at its deadline and
re-finalizing later yields the identical state. -/
theorem finalize_any_caller_idempotent_witness :
    finalize_proposal govProp0 259200 = .ok { govProp0 with status := .Finalized } ∧
    finalize_proposal { govProp0 with status := .Finalized } 300000 =
      .ok { govProp0 with status := .Finalized } :=
  finalize_any_caller_idempotent govProp0 259200 300000 (by decide) (by decide)

end StakingVoting
